import Mathlib

/-!
Verification of the dispatch-registry and rewrite-pipeline core of the funsor
repository (`funsor/registry.py` and `funsor/engine/optimizer.py`), shallowly
embedded in Lean.
-/

set_option autoImplicit false

namespace Funsor

/-- Operand classes are identified by numeric codes; `inspect.getmro` of a
class is modelled as an explicit ancestor chain, the class itself first. -/
abbrev Cls := Nat

/-- Operation keys (the `key` argument of the registries). -/
abbrev Key := Nat

/-- Handlers are opaque callables; we track them by identifier. -/
abbrev Handler := Nat

/-- The table `self._registry` of `UnaryRegistry`: entries keyed by
`(key, cls)`.  A fresh registration shadows an older one under the same key
(`self._registry[key][cls] = fn` overwrites), modelled by consing the newest
entry in front and looking up the first hit. -/
abbrev RegU := List ((Key × Cls) × Handler)

/-- Lookup of `cls` in the per-key sub-table `self._registry[key]`. -/
def regLookup (reg : RegU) (k : Key) (c : Cls) : Option Handler :=
  (reg.find? (fun e => e.1 == (k, c))).map (fun e => e.2)

/-- `UnaryRegistry._dispatch`: walk the mro of the class and return the first
ancestor with a registered handler; `none` models the `NotImplemented`
sentinel (returned both when the per-key sub-table is empty and when the walk
finds no match). -/
def unaryDispatch (reg : RegU) (k : Key) (mro : List Cls) : Option Handler :=
  mro.findSome? (fun c => regLookup reg k c)

/-- The resolution cache `self._cache` of `UnaryRegistry`: maps
`(key, type(x))` either to the resolved handler or to the cached
`NotImplemented` sentinel (`none`). -/
abbrev CacheU := List ((Key × Cls) × Option Handler)

/-- Cache lookup `self._cache[key, type(x)]`. -/
def cacheLookup (cache : CacheU) (k : Key) (c : Cls) : Option (Option Handler) :=
  (cache.find? (fun e => e.1 == (k, c))).map (fun e => e.2)

/-- State of a `UnaryRegistry` instance: the registration table plus the
resolution cache. -/
structure UnaryRegistry where
  registry : RegU
  cache : CacheU

/-- `UnaryRegistry.register`: store the handler under the exact `(key, cls)`
pair and clear the whole resolution cache. -/
def UnaryRegistry.register (s : UnaryRegistry) (k : Key) (c : Cls) (f : Handler) :
    UnaryRegistry :=
  { registry := ((k, c), f) :: s.registry, cache := [] }

/-- `UnaryRegistry.__call__` on an operand of concrete class `c`: consult the
cache, dispatch on a miss and cache the outcome (the `NotImplemented`
sentinel included).  A first component `none` models
`raise NotImplementedError`; `some f` means handler `f` is invoked. -/
def UnaryRegistry.call (mro : Cls → List Cls) (s : UnaryRegistry) (k : Key) (c : Cls) :
    Option Handler × UnaryRegistry :=
  match cacheLookup s.cache k c with
  | some fn => (fn, s)
  | none =>
    let fn := unaryDispatch s.registry k (mro c)
    (fn, { s with cache := ((k, c), fn) :: s.cache })

/-- The table `self._registry` of `BinaryRegistry`, keyed by
`(key, cls1, cls2)`, newest entry first. -/
abbrev RegB := List ((Key × Cls × Cls) × Handler)

/-- Lookup of `(cls1, cls2)` in the per-key sub-table. -/
def regLookupB (reg : RegB) (k : Key) (c1 c2 : Cls) : Option Handler :=
  (reg.find? (fun e => e.1 == (k, c1, c2))).map (fun e => e.2)

/-- Strict lexicographic order on rank pairs, as Python compares the tuples
produced by the `key` functions of the two `min(...)` calls. -/
def lexLt (p q : Nat × Nat) : Bool :=
  p.1 < q.1 || (p.1 == q.1 && p.2 < q.2)

/-- Python `min(l, key=...)`: the first element of the list attaining the
least key (earlier elements win ties). -/
def minBy {α : Type} (key : α → Nat × Nat) : List α → Option α
  | [] => none
  | x :: xs =>
    match minBy key xs with
    | none => some x
    | some y => if lexLt (key y) (key x) then some y else some x

/-- The `matches` list of `BinaryRegistry._dispatch`:
`itertools.product(ranks1, ranks2)` filtered by membership in the per-key
sub-table, in product order (left mro outer, right mro inner). -/
def binMatches (reg : RegB) (k : Key) : List Cls → List Cls → List (Cls × Cls)
  | [], _ => []
  | t1 :: r1, mro2 =>
    (mro2.filterMap fun t2 =>
      if (regLookupB reg k t1 t2).isSome then some (t1, t2) else none)
      ++ binMatches reg k r1 mro2

/-- The key `(ranks1[m[0]], ranks2[m[1]])` of the first `min` call: the rank
of an ancestor is its index in the mro. -/
def rkLR (mro1 mro2 : List Cls) (m : Cls × Cls) : Nat × Nat :=
  (mro1.indexOf m.1, mro2.indexOf m.2)

/-- The key `(ranks2[m[1]], ranks1[m[0]])` of the second `min` call. -/
def rkRL (mro1 mro2 : List Cls) (m : Cls × Cls) : Nat × Nat :=
  (mro2.indexOf m.2, mro1.indexOf m.1)

/-- Outcome of `BinaryRegistry._dispatch`: the `NotImplemented` sentinel, the
`ValueError('Ambiguous dispatch ...')` naming the two best candidates, or the
selected handler. -/
inductive BinResult where
  | notImpl : BinResult
  | ambiguous : Cls × Cls → Cls × Cls → BinResult
  | found : Handler → BinResult
deriving DecidableEq, Repr

/-- `BinaryRegistry._dispatch`: collect the matching ancestor pairs, take the
minimum under left-then-right ranks and under right-then-left ranks, raise
the ambiguity error when the two disagree, otherwise return the registered
handler of the agreed candidate. -/
def binDispatch (reg : RegB) (k : Key) (mro1 mro2 : List Cls) : BinResult :=
  let ms := binMatches reg k mro1 mro2
  match minBy (rkLR mro1 mro2) ms, minBy (rkRL mro1 mro2) ms with
  | some m1, some m2 =>
    if m1 = m2 then
      match regLookupB reg k m1.1 m1.2 with
      | some f => BinResult.found f
      | none => BinResult.notImpl
    else BinResult.ambiguous m1 m2
  | _, _ => BinResult.notImpl

/-- The resolution cache of `BinaryRegistry`. -/
abbrev CacheB := List ((Key × Cls × Cls) × Option Handler)

/-- Cache lookup `self._cache[key, type(x), type(y)]`. -/
def cacheLookupB (cache : CacheB) (k : Key) (c1 c2 : Cls) : Option (Option Handler) :=
  (cache.find? (fun e => e.1 == (k, c1, c2))).map (fun e => e.2)

/-- State of a `BinaryRegistry` instance. -/
structure BinaryRegistry where
  registry : RegB
  cache : CacheB

/-- `BinaryRegistry.register`: store the handler under the exact triple and
clear the whole resolution cache. -/
def BinaryRegistry.register (s : BinaryRegistry) (k : Key) (c1 c2 : Cls) (f : Handler) :
    BinaryRegistry :=
  { registry := ((k, c1, c2), f) :: s.registry, cache := [] }

/-- `BinaryRegistry.__call__`: a cache hit short-circuits; on a miss
`_dispatch` runs and its outcome is cached — except that the ambiguity
`ValueError` propagates before the cache assignment executes. -/
def BinaryRegistry.call (mro : Cls → List Cls) (s : BinaryRegistry) (k : Key) (c1 c2 : Cls) :
    BinResult × BinaryRegistry :=
  match cacheLookupB s.cache k c1 c2 with
  | some (some f) => (BinResult.found f, s)
  | some none => (BinResult.notImpl, s)
  | none =>
    match binDispatch s.registry k (mro c1) (mro c2) with
    | BinResult.found f =>
      (BinResult.found f, { s with cache := ((k, c1, c2), some f) :: s.cache })
    | BinResult.notImpl =>
      (BinResult.notImpl, { s with cache := ((k, c1, c2), none) :: s.cache })
    | BinResult.ambiguous m1 m2 => (BinResult.ambiguous m1 m2, s)

/-- Modelled from the spec: the `ExpressionNode` taxonomy (`Leaf`,
`ElementwiseOp` alias `Finitary`, `ReduceOp` alias `Reduction`) lives in
`funsor/terms.py`, outside the extracted core.  A leaf carries an opaque
identifier together with its free-dimension set (the metadata the external
provider attaches); dimension identifiers are numeric codes. -/
inductive ExprNode where
  | leaf : Nat → Finset Nat → ExprNode
  | finitary : Nat → List ExprNode → ExprNode
  | reduction : Nat → ExprNode → Finset Nat → ExprNode

/-- `isinstance(arg, Finitary)`. -/
def ExprNode.isFinitary : ExprNode → Bool
  | .finitary _ _ => true
  | _ => false

/-- `Deoptimize` handler `deoptimize_finitary`: the body of the source
function is `pass`, so it returns Python `None` whatever its input — it
never builds a merged `Finitary`.  The option type makes the absent result
explicit. -/
def deoptimize_finitary (op : Nat) (terms : List ExprNode) : Option ExprNode :=
  none

/-- `Deoptimize` handler `deoptimize_reduce`: the source body is
`raise NotImplementedError("TODO")`, modelled as an error result. -/
def deoptimize_reduce (op : Nat) (arg : ExprNode) (reduce_dims : Finset Nat) :
    Except String ExprNode :=
  Except.error "NotImplementedError: TODO"

/-- `Optimize` handler `optimize_path`.  When the reduced operand is not a
`Finitary`, the source reflects: it returns `Reduction(op, arg, reduce_dims)`.
When it is a `Finitary`, the body's first loop iterates over the undefined
name `terms` (the function's parameters are `op, arg, reduce_dims`), so in
Python that branch raises `NameError`; it is modelled as an error result. -/
def optimize_path (op : Nat) (arg : ExprNode) (reduce_dims : Finset Nat) :
    Except String ExprNode :=
  if arg.isFinitary then Except.error "NameError: name terms is not defined"
  else Except.ok (ExprNode.reduction op arg reduce_dims)

/-- The `size_dict` built by the loop of `optimize_path` (optimizer.py lines
63–68), as a lookup function: each iteration executes
`size_dict.update({d: 2 for d in term.dims})`, so after the loop every
dimension mentioned by any term maps to the hardcoded size `2` (the source
comment on that line reads `# TODO get sizes right`). -/
def size_dict_lookup (termDims : List (Finset Nat)) (d : Nat) : Option Nat :=
  if termDims.any (fun s => decide (d ∈ s)) then some 2 else none

/-- Modelled from the spec: the operand-metadata provider of the interface
section supplies, for each dimension, a positive integer cardinality; in the
failing instance below, dimension `0` has cardinality `3`. -/
def example_card : Nat → Nat :=
  fun _ => 3

/-- The per-step reduced set synthesized at optimizer.py lines 83–84: each
pairwise combination step builds
`Reduction(reduce_op, Finitary(finitary_op, [a, b]), reduce_dims & a.dims & b.dims)`,
i.e. it drops `reduce_dims ∩ a.dims ∩ b.dims` without consulting the
not-yet-combined operands (the adjacent source comment reads
`# TODO don't reduce a dimension too early`). -/
def step_reduce_dims (reduce_dims aDims bDims : Finset Nat) : Finset Nat :=
  reduce_dims ∩ aDims ∩ bDims

/-- Modelled from the spec: a dimension may be dropped at a combination step
only when it is outside the surviving output dimensions and no
not-yet-combined remaining operand mentions it. -/
def droppable (outputDims : Finset Nat) (remaining : List (Finset Nat)) (d : Nat) : Prop :=
  d ∉ outputDims ∧ ∀ s ∈ remaining, d ∉ s

/-- A unary-registry state whose cache agrees with `_dispatch`: every cached
entry equals what dispatching against the current table yields.  A fresh or
just-cleared cache is trivially consistent, and both `register` (which clears
the cache) and `call` (which inserts freshly dispatched entries) preserve the
property. -/
def UnaryConsistent (mro : Cls → List Cls) (s : UnaryRegistry) : Prop :=
  ∀ k c v, cacheLookup s.cache k c = some v → v = unaryDispatch s.registry k (mro c)

/-- A concrete taxonomy for witnesses: every class other than the root `0`
derives directly from `0`, so `getmro` of class `c` is `[c, 0]`. -/
def mro0 : Cls → List Cls :=
  fun c => [c, 0]

section Helpers

/-- Nothing is lexicographically below the rank pair `(0, 0)`. -/
theorem lexLt_zero (p : Nat × Nat) : lexLt p (0, 0) = false := by
  simp [lexLt]

/-- Python `min` returns the head of the list when nothing beats its key
strictly. -/
theorem minBy_cons_of_min {α : Type} (key : α → Nat × Nat) (x : α) (xs : List α)
    (h : ∀ y, lexLt (key y) (key x) = false) : minBy key (x :: xs) = some x := by
  cases hmb : minBy key xs with
  | none => simp [minBy, hmb]
  | some y => simp [minBy, hmb, h y]

/-- A freshly inserted cache entry is found by the next lookup of its key. -/
theorem cacheLookup_cons_self (k : Key) (c : Cls) (v : Option Handler) (rest : CacheU) :
    cacheLookup (((k, c), v) :: rest) k c = some v := by
  simp [cacheLookup, List.find?]

/-- A freshly inserted binary cache entry is found by the next lookup of its
key. -/
theorem cacheLookupB_cons_self (k : Key) (c1 c2 : Cls) (v : Option Handler) (rest : CacheB) :
    cacheLookupB (((k, c1, c2), v) :: rest) k c1 c2 = some v := by
  simp [cacheLookupB, List.find?]

/-- On a consistent state, the handler a call resolves is exactly what
`_dispatch` computes from the registration table. -/
theorem unary_call_fst (mro : Cls → List Cls) (s : UnaryRegistry) (k : Key) (c : Cls)
    (h : UnaryConsistent mro s) :
    (UnaryRegistry.call mro s k c).1 = unaryDispatch s.registry k (mro c) := by
  cases hc : cacheLookup s.cache k c with
  | none => simp [UnaryRegistry.call, hc]
  | some v => simpa [UnaryRegistry.call, hc] using h k c v hc

/-- Repeating a unary call on the state the first call produced resolves the
same outcome. -/
theorem unary_call_stable (mro : Cls → List Cls) (s : UnaryRegistry) (k : Key) (c : Cls) :
    (UnaryRegistry.call mro ((UnaryRegistry.call mro s k c).2) k c).1 =
      (UnaryRegistry.call mro s k c).1 := by
  cases hc : cacheLookup s.cache k c with
  | some v => simp [UnaryRegistry.call, hc]
  | none => simp [UnaryRegistry.call, hc, cacheLookup_cons_self]

/-- Repeating a binary call on the state the first call produced resolves the
same outcome. -/
theorem binary_call_stable (mro : Cls → List Cls) (t : BinaryRegistry) (k : Key)
    (c1 c2 : Cls) :
    (BinaryRegistry.call mro ((BinaryRegistry.call mro t k c1 c2).2) k c1 c2).1 =
      (BinaryRegistry.call mro t k c1 c2).1 := by
  cases hc : cacheLookupB t.cache k c1 c2 with
  | some v => cases v <;> simp [BinaryRegistry.call, hc]
  | none =>
    cases hd : binDispatch t.registry k (mro c1) (mro c2) with
    | found f => simp [BinaryRegistry.call, hc, hd, cacheLookupB_cons_self]
    | notImpl => simp [BinaryRegistry.call, hc, hd, cacheLookupB_cons_self]
    | ambiguous m1 m2 => simp [BinaryRegistry.call, hc, hd]

end Helpers

/-- Claim C1, counterexample: with handlers registered for `(OpX, A, B)` and
`(OpX, B, A)` for unrelated classes `A = 1`, `B = 2` (both direct children of
the root `0`), dispatching `(OpX, A_instance, B_instance)` does NOT raise the
ambiguity error: the key `(B, A)` never matches (`B` is not in `A`'s mro), so
the single match `(A, B)` is silently selected. -/
theorem c1_counterexample :
    binDispatch [((7, 1, 2), 10), ((7, 2, 1), 11)] 7 [1, 0] [2, 0] =
      BinResult.found 10 := by
  decide

/-- Claim C1 (amended): whenever the matching candidate set is non-empty and
the candidate minimal by (left rank, right rank) differs from the candidate
minimal by (right rank, left rank), dual dispatch raises the ambiguity error
naming the two best candidates rather than silently picking one.  (The
registration pattern realizing this is e.g. handlers for `(OpX, A, Root)` and
`(OpX, Root, B)`; the pattern `(OpX, A, B)` / `(OpX, B, A)` of the original
claim is not ambiguous because `(B, A)` never matches.) -/
theorem c1_ambiguity_error (reg : RegB) (k : Key) (mro1 mro2 : List Cls)
    (m1 m2 : Cls × Cls)
    (h1 : minBy (rkLR mro1 mro2) (binMatches reg k mro1 mro2) = some m1)
    (h2 : minBy (rkRL mro1 mro2) (binMatches reg k mro1 mro2) = some m2)
    (hne : m1 ≠ m2) :
    binDispatch reg k mro1 mro2 = BinResult.ambiguous m1 m2 := by
  simp [binDispatch, h1, h2, hne]

/-- Claim C1, witness: handlers for `(OpX, A, Root)` and `(OpX, Root, B)`
with `A = 1`, `B = 2`, `Root = 0` make the two rank orderings disagree, and
the dispatch outcome is the ambiguity error naming both candidates. -/
theorem c1_ambiguity_error_witness :
    binDispatch [((7, 1, 0), 10), ((7, 0, 2), 11)] 7 [1, 0] [2, 0] =
      BinResult.ambiguous (1, 0) (0, 2) :=
  c1_ambiguity_error [((7, 1, 0), 10), ((7, 0, 2), 11)] 7 [1, 0] [2, 0]
    (1, 0) (0, 2) (by decide) (by decide) (by decide)

/-- Claim C4: single dispatch resolves to the handler of the nearest
registered ancestor in the operand's mro, walked from the concrete type
itself outward: if no class before `t` in the chain is registered and `t`
is, the dispatch returns `t`'s handler. -/
theorem c4_nearest_ancestor (reg : RegU) (k : Key) (pre : List Cls) (t : Cls)
    (post : List Cls) (f : Handler)
    (hpre : ∀ u ∈ pre, regLookup reg k u = none)
    (ht : regLookup reg k t = some f) :
    unaryDispatch reg k (pre ++ t :: post) = some f := by
  induction pre with
  | nil => simp [unaryDispatch, List.findSome?_cons, ht]
  | cons a as ih =>
    have ha : regLookup reg k a = none := hpre a (by simp)
    have has : ∀ u ∈ as, regLookup reg k u = none := fun u hu => hpre u (by simp [hu])
    simpa [unaryDispatch, List.findSome?_cons, ha] using ih has

/-- Claim C4, witness: the three-level chain `Base(0) ← Mid(1) ← Leaf(2)`
with handlers registered only at `Base` (handler 20) and `Mid` (handler 21):
dispatching on a `Leaf` instance resolves to the `Mid` handler. -/
theorem c4_nearest_ancestor_witness :
    unaryDispatch [((5, 1), 21), ((5, 0), 20)] 5 [2, 1, 0] = some 21 :=
  c4_nearest_ancestor [((5, 1), 21), ((5, 0), 20)] 5 [2] 1 [0] 21
    (by decide) (by decide)

/-- Claim C5: on any cache-consistent state, a unary dispatch call fails with
the not-found condition iff no member of the operand's ancestor chain has a
handler registered for the operation, and when it succeeds the handler it
invokes is one registered for some chain member. -/
theorem c5_dispatch_notfound_iff (mro : Cls → List Cls) (s : UnaryRegistry)
    (k : Key) (c : Cls) (hcons : UnaryConsistent mro s) :
    ((UnaryRegistry.call mro s k c).1 = none ↔
      ∀ u ∈ mro c, regLookup s.registry k u = none) ∧
    ∀ f, (UnaryRegistry.call mro s k c).1 = some f →
      ∃ u ∈ mro c, regLookup s.registry k u = some f := by
  rw [unary_call_fst mro s k c hcons]
  constructor
  · exact List.findSome?_eq_none_iff
  · intro f hf
    exact List.exists_of_findSome?_eq_some hf

/-- Claim C5, witness: under the taxonomy `mro0`, with only the root class
`0` registered (handler 9) and an empty cache, dispatching class `3`
satisfies both directions of the characterization. -/
theorem c5_dispatch_notfound_iff_witness :
    ((UnaryRegistry.call mro0 ⟨[((5, 0), 9)], []⟩ 5 3).1 = none ↔
      ∀ u ∈ mro0 3, regLookup [((5, 0), 9)] 5 u = none) ∧
    ∀ f, (UnaryRegistry.call mro0 ⟨[((5, 0), 9)], []⟩ 5 3).1 = some f →
      ∃ u ∈ mro0 3, regLookup [((5, 0), 9)] 5 u = some f :=
  c5_dispatch_notfound_iff mro0 ⟨[((5, 0), 9)], []⟩ 5 3
    (fun k c v h => by simp [cacheLookup] at h)

/-- Claim C6: with no intervening registration, a repeated dispatch call (for
the same operation and the same concrete operand type, resp. type pair)
resolves exactly the outcome of the first call, for the unary and the binary
registry alike. -/
theorem c6_dispatch_deterministic (mro : Cls → List Cls) (s : UnaryRegistry)
    (t : BinaryRegistry) (k : Key) (c c1 c2 : Cls) :
    (UnaryRegistry.call mro ((UnaryRegistry.call mro s k c).2) k c).1 =
      (UnaryRegistry.call mro s k c).1 ∧
    (BinaryRegistry.call mro ((BinaryRegistry.call mro t k c1 c2).2) k c1 c2).1 =
      (BinaryRegistry.call mro t k c1 c2).1 :=
  ⟨unary_call_stable mro s k c, binary_call_stable mro t k c1 c2⟩

/-- Claim C9: a handler registered under the exact concrete pair
`(key, type(x), type(y))` is minimal under both rank orderings, so dual
dispatch selects it and the ambiguity error is never raised for that call,
whatever else is registered. -/
theorem c9_exact_key_wins (reg : RegB) (k : Key) (c1 c2 : Cls)
    (r1 r2 : List Cls) (f : Handler)
    (hreg : regLookupB reg k c1 c2 = some f) :
    binDispatch reg k (c1 :: r1) (c2 :: r2) = BinResult.found f ∧
    ∀ a b, binDispatch reg k (c1 :: r1) (c2 :: r2) ≠ BinResult.ambiguous a b := by
  have hms : binMatches reg k (c1 :: r1) (c2 :: r2) =
      (c1, c2) :: ((r2.filterMap fun t2 =>
        if (regLookupB reg k c1 t2).isSome then some (c1, t2) else none)
        ++ binMatches reg k r1 (c2 :: r2)) := by
    simp [binMatches, List.filterMap_cons, hreg]
  have hk1 : rkLR (c1 :: r1) (c2 :: r2) (c1, c2) = (0, 0) := by
    simp [rkLR, List.indexOf_cons_self]
  have hk2 : rkRL (c1 :: r1) (c2 :: r2) (c1, c2) = (0, 0) := by
    simp [rkRL, List.indexOf_cons_self]
  have h1 : minBy (rkLR (c1 :: r1) (c2 :: r2))
      (binMatches reg k (c1 :: r1) (c2 :: r2)) = some (c1, c2) := by
    rw [hms]
    exact minBy_cons_of_min _ _ _ (fun y => by rw [hk1]; exact lexLt_zero _)
  have h2 : minBy (rkRL (c1 :: r1) (c2 :: r2))
      (binMatches reg k (c1 :: r1) (c2 :: r2)) = some (c1, c2) := by
    rw [hms]
    exact minBy_cons_of_min _ _ _ (fun y => by rw [hk2]; exact lexLt_zero _)
  have hfound : binDispatch reg k (c1 :: r1) (c2 :: r2) = BinResult.found f := by
    simp [binDispatch, h1, h2, hreg]
  exact ⟨hfound, fun a b hab => by rw [hfound] at hab; exact BinResult.noConfusion hab⟩

/-- Claim C9, witness: with the exact pair `(7, 1, 2)` registered (handler
42) alongside nothing else, dispatch on mros `[1,0]` and `[2,0]` selects
handler 42 and is not ambiguous. -/
theorem c9_exact_key_wins_witness :
    binDispatch [((7, 1, 2), 42)] 7 [1, 0] [2, 0] = BinResult.found 42 ∧
    ∀ a b, binDispatch [((7, 1, 2), 42)] 7 [1, 0] [2, 0] ≠ BinResult.ambiguous a b :=
  c9_exact_key_wins [((7, 1, 2), 42)] 7 1 2 [0] [0] 42 (by decide)

/-- Claim C10: a dispatch call never modifies the registration table (unary
and binary); on a cache miss the resolved entry — the `NotImplemented`
sentinel included — is inserted into the cache; a repeated failing call
fails the same way; and since registration clears the whole cache, a call
that previously failed succeeds once a handler for the exact key is
registered. -/
theorem c10_call_frame_and_recovery (mro : Cls → List Cls) (s : UnaryRegistry)
    (t : BinaryRegistry) (k : Key) (c c1 c2 : Cls) (f : Handler)
    (hfail : (UnaryRegistry.call mro s k c).1 = none)
    (hmro : ∃ r, mro c = c :: r) :
    ((UnaryRegistry.call mro s k c).2.registry = s.registry) ∧
    ((BinaryRegistry.call mro t k c1 c2).2.registry = t.registry) ∧
    ((UnaryRegistry.call mro ((UnaryRegistry.call mro s k c).2) k c).1 = none) ∧
    (cacheLookup s.cache k c = none →
      cacheLookup ((UnaryRegistry.call mro s k c).2).cache k c = some none) ∧
    ((UnaryRegistry.call mro
        (UnaryRegistry.register ((UnaryRegistry.call mro s k c).2) k c f) k c).1 =
      some f) := by
  obtain ⟨r, hr⟩ := hmro
  refine ⟨?_, ?_, ?_, ?_, ?_⟩
  · cases hc : cacheLookup s.cache k c <;> simp [UnaryRegistry.call, hc]
  · cases hc : cacheLookupB t.cache k c1 c2 with
    | some v => cases v <;> simp [BinaryRegistry.call, hc]
    | none =>
      cases hd : binDispatch t.registry k (mro c1) (mro c2) <;>
        simp [BinaryRegistry.call, hc, hd]
  · rw [unary_call_stable]; exact hfail
  · intro hmiss
    have hdisp : unaryDispatch s.registry k (mro c) = none := by
      simpa [UnaryRegistry.call, hmiss] using hfail
    simp [UnaryRegistry.call, hmiss, hdisp, cacheLookup_cons_self]
  · simp [UnaryRegistry.call, UnaryRegistry.register, cacheLookup, hr,
      unaryDispatch, List.findSome?_cons, regLookup, List.find?]

/-- Claim C10, witness: in the empty unary registry, operation 5 on class 3
(taxonomy `mro0`) fails; the call leaves the table empty, caches the
sentinel, fails identically when repeated, and succeeds with handler 9 after
`register(5, 3)` runs. -/
theorem c10_call_frame_and_recovery_witness :
    ((UnaryRegistry.call mro0 ⟨[], []⟩ 5 3).2.registry = ([] : RegU)) ∧
    ((BinaryRegistry.call mro0 ⟨[], []⟩ 5 1 2).2.registry = ([] : RegB)) ∧
    ((UnaryRegistry.call mro0 ((UnaryRegistry.call mro0 ⟨[], []⟩ 5 3).2) 5 3).1 = none) ∧
    (cacheLookup ([] : CacheU) 5 3 = none →
      cacheLookup ((UnaryRegistry.call mro0 ⟨[], []⟩ 5 3).2).cache 5 3 = some none) ∧
    ((UnaryRegistry.call mro0
        (UnaryRegistry.register ((UnaryRegistry.call mro0 ⟨[], []⟩ 5 3).2) 5 3 9) 5 3).1 =
      some 9) :=
  c10_call_frame_and_recovery mro0 ⟨[], []⟩ ⟨[], []⟩ 5 3 1 2 9 (by decide) ⟨[0], rfl⟩

/-- Claim C8: the Optimize handler applied to a reduction whose operand is
not a `Finitary` returns an equal `Reduction` over the same operand and the
same reduced dimension set (the no-op reflect branch). -/
theorem c8_optimize_reflect (op : Nat) (arg : ExprNode) (reduce_dims : Finset Nat)
    (h : arg.isFinitary = false) :
    optimize_path op arg reduce_dims =
      Except.ok (ExprNode.reduction op arg reduce_dims) := by
  simp [optimize_path, h]

/-- Claim C8, witness: a reduction over a `Leaf` is returned unchanged by
`optimize_path`. -/
theorem c8_optimize_reflect_witness :
    optimize_path 0 (ExprNode.leaf 0 {0, 1}) {0} =
      Except.ok (ExprNode.reduction 0 (ExprNode.leaf 0 {0, 1}) {0}) :=
  c8_optimize_reflect 0 (ExprNode.leaf 0 {0, 1}) {0} rfl

/-- Claim C2, code evaluation: with operands of free dims `{a,b} = {0,1}`,
`{b,c} = {1,2}`, `{b,d} = {1,3}` reduced over `{b} = {1}`, the combination
step the source synthesizes for the pair `({a,b}, {b,c})` drops `b`
(`reduce_dims & a.dims & b.dims = {1}`) even though the not-yet-combined
operand `{b,d}` still mentions `b` — exactly the premature reduction the
source's own TODO comment says must be prevented; `b` is not droppable in
the spec's sense at that step. -/
theorem c2_premature_reduction_bug :
    1 ∈ step_reduce_dims {1} {0, 1} {1, 2} ∧
    1 ∈ ({1, 3} : Finset Nat) ∧
    ¬ droppable ((({0, 1} ∪ {1, 2} ∪ {1, 3}) : Finset Nat) \ {1}) [{1, 3}] 1 := by
  refine ⟨by decide, by decide, fun hd => ?_⟩
  simp only [droppable] at hd
  exact hd.2 {1, 3} (by simp) (by decide)

/-- Claim C3, code evaluation: the Deoptimize handlers are unimplemented
stubs — `deoptimize_finitary` (body `pass`) returns no merged node on a
nested `Finitary(Finitary)` under the same operator, and `deoptimize_reduce`
raises `NotImplementedError` on a nested `Reduction(Reduction)` under the
same operator, instead of merging either into a widest single node. -/
theorem c3_deoptimize_unimplemented :
    deoptimize_finitary 0
      [ExprNode.finitary 0 [ExprNode.leaf 0 {0}, ExprNode.leaf 1 {1}], ExprNode.leaf 2 {2}]
      = none ∧
    deoptimize_reduce 0 (ExprNode.reduction 0 (ExprNode.leaf 0 {0, 1}) {0}) {1} =
      Except.error "NotImplementedError: TODO" :=
  ⟨rfl, rfl⟩

/-- Claim C7, code evaluation: for an operand mentioning dimension `0` whose
metadata cardinality is `3`, the `size_dict` the source builds maps the
dimension to the hardcoded `2`, not to the actual cardinality. -/
theorem c7_size_dict_hardcoded :
    size_dict_lookup [{0}] 0 = some 2 ∧
    example_card 0 = 3 ∧
    size_dict_lookup [{0}] 0 ≠ some (example_card 0) := by
  refine ⟨by decide, rfl, by decide⟩

end Funsor
